import Mathlib

/-!
Verification development for the `ggst-api-rs` replay decoder
(`src/requests.rs`).  Bytes are modelled as `Nat`, byte buffers as
`List Nat`, and the fallible decoding pipeline of `get_replays` as
functions into `Except Err`.
-/

set_option maxRecDepth 10000

namespace GgstApi

/-- The error type of the crate, restricted to the two variants `get_replays`
can produce (`Error::InvalidArguments` and `Error::UnexpectedResponse`). -/
inductive Err where
  | invalidArguments (msg : String)
  | unexpectedResponse (msg : String)
deriving DecidableEq, Repr

/-- One hex digit, lowercase, as emitted by `std::ascii::escape_default`. -/
def hexDigit (n : Nat) : Char :=
  if n < 10 then Char.ofNat (48 + n) else Char.ofNat (87 + n)

/-- The behaviour of `std::ascii::escape_default` for one byte: `\t`, `\r`, `\n`, `\\`, `\'`,
`\"` are escaped, printable ASCII (0x20–0x7e) passes through, everything else
becomes `\xNN` with lowercase hex digits. -/
def escByte (b : Nat) : List Char :=
  if b = 9 then [Char.ofNat 92, Char.ofNat 116]
  else if b = 13 then [Char.ofNat 92, Char.ofNat 114]
  else if b = 10 then [Char.ofNat 92, Char.ofNat 110]
  else if b = 92 then [Char.ofNat 92, Char.ofNat 92]
  else if b = 39 then [Char.ofNat 92, Char.ofNat 39]
  else if b = 34 then [Char.ofNat 92, Char.ofNat 34]
  else if 32 ≤ b ∧ b ≤ 126 then [Char.ofNat b]
  else [Char.ofNat 92, Char.ofNat 120, hexDigit (b / 16), hexDigit (b % 16)]

/-- The `show_buf` helper of `requests.rs`: render a byte buffer as a printable
escaped string for diagnostics. -/
def show_buf (l : List Nat) : String :=
  ⟨(l.map escByte).flatten⟩

/-- Is `b` a UTF-8 continuation byte (`0x80–0xbf`)? -/
def isCont (b : Nat) : Bool :=
  decide (128 ≤ b ∧ b ≤ 191)

/-- The Unicode replacement character U+FFFD. -/
def replChar : Char := Char.ofNat 0xFFFD

/-- UTF-8 decoding with replacement, the behaviour of Rust's
`String::from_utf8_lossy`: each maximal invalid prefix is replaced by one
U+FFFD, resuming after the bytes consumed by the failed sequence. -/
def utf8LossyF : Nat → List Nat → List Char
  | _, [] => []
  | 0, _ => []
  | fuel + 1, b0 :: rest =>
    if b0 < 128 then Char.ofNat b0 :: utf8LossyF fuel rest
    else if 194 ≤ b0 ∧ b0 ≤ 223 then
      match rest with
      | c1 :: rest2 =>
        if isCont c1 then Char.ofNat ((b0 - 192) * 64 + (c1 - 128)) :: utf8LossyF fuel rest2
        else replChar :: utf8LossyF fuel (c1 :: rest2)
      | [] => [replChar]
    else if 224 ≤ b0 ∧ b0 ≤ 239 then
      match rest with
      | c1 :: rest2 =>
        let okC1 : Bool :=
          if b0 = 224 then decide (160 ≤ c1 ∧ c1 ≤ 191)
          else if b0 = 237 then decide (128 ≤ c1 ∧ c1 ≤ 159)
          else isCont c1
        if okC1 then
          match rest2 with
          | c2 :: rest3 =>
            if isCont c2 then
              Char.ofNat ((b0 - 224) * 4096 + (c1 - 128) * 64 + (c2 - 128)) ::
                utf8LossyF fuel rest3
            else replChar :: utf8LossyF fuel (c2 :: rest3)
          | [] => [replChar]
        else replChar :: utf8LossyF fuel (c1 :: rest2)
      | [] => [replChar]
    else if 240 ≤ b0 ∧ b0 ≤ 244 then
      match rest with
      | c1 :: rest2 =>
        let okC1 : Bool :=
          if b0 = 240 then decide (144 ≤ c1 ∧ c1 ≤ 191)
          else if b0 = 244 then decide (128 ≤ c1 ∧ c1 ≤ 143)
          else isCont c1
        if okC1 then
          match rest2 with
          | c2 :: rest3 =>
            if isCont c2 then
              match rest3 with
              | c3 :: rest4 =>
                if isCont c3 then
                  Char.ofNat ((b0 - 240) * 262144 + (c1 - 128) * 4096 +
                    (c2 - 128) * 64 + (c3 - 128)) :: utf8LossyF fuel rest4
                else replChar :: utf8LossyF fuel (c3 :: rest4)
              | [] => [replChar]
            else replChar :: utf8LossyF fuel (c2 :: rest3)
          | [] => [replChar]
        else replChar :: utf8LossyF fuel (c1 :: rest2)
      | [] => [replChar]
    else replChar :: utf8LossyF fuel rest

/-- The behaviour of `String::from_utf8_lossy` on a byte buffer (each step of `utf8LossyF`
consumes at least one byte, so `l.length` fuel always suffices). -/
def utf8Lossy (l : List Nat) : String :=
  ⟨utf8LossyF l.length l⟩

/-- Split a byte buffer at every non-overlapping leftmost occurrence of the
pattern `p0 :: ps`, the behaviour of `regex::bytes::Regex::split` for a
literal byte-sequence pattern.  Every occurrence of the pattern ends the
current piece; pieces may be empty. -/
def splitOnSubseqF (p0 : Nat) (ps : List Nat) : Nat → List Nat → List (List Nat)
  | _, [] => [[]]
  | 0, l => [l]
  | fuel + 1, x :: xs =>
    if x = p0 ∧ ps.isPrefixOf xs then
      [] :: splitOnSubseqF p0 ps fuel (xs.drop ps.length)
    else
      match splitOnSubseqF p0 ps fuel xs with
      | [] => [[x]]
      | y :: ys => (x :: y) :: ys

/-- Split a byte buffer at every non-overlapping leftmost occurrence of the
pattern (each step of `splitOnSubseqF` consumes at least one byte, so
`l.length` fuel always suffices). -/
def splitOnSubseq (p0 : Nat) (ps : List Nat) (l : List Nat) : List (List Nat) :=
  splitOnSubseqF p0 ps l.length l

/-- Splitting on a single byte, the behaviour of `slice::split` with the
predicate `*f == sep`. -/
def splitOnByte (sep : Nat) (l : List Nat) : List (List Nat) :=
  splitOnSubseq sep [] l

/-- Decimal digit value of a character, `none` for non-digits. -/
def digitVal (c : Char) : Option Nat :=
  if 48 ≤ c.toNat ∧ c.toNat ≤ 57 then some (c.toNat - 48) else none

/-- Accumulate a base-10 number over a digit list; `none` on any non-digit. -/
def parseDigits : Nat → List Char → Option Nat
  | acc, [] => some acc
  | acc, c :: cs =>
    match digitVal c with
    | some d => parseDigits (acc * 10 + d) cs
    | none => none

/-- The behaviour of `u64::from_str_radix(s, 10)`: an optional leading `+`, then one or more
decimal digits, value below `2^64`. -/
def parseU64 (s : String) : Option Nat :=
  let cs :=
    match s.data with
    | c :: rest => if c.toNat = 43 then rest else c :: rest
    | [] => []
  match cs with
  | [] => none
  | _ =>
    match parseDigits 0 cs with
    | some v => if v < 2 ^ 64 then some v else none
    | none => none

/-- A parsed wall-clock timestamp (UTC), the decoded form of the
`"%Y-%m-%d %H:%M:%S"` layout.  The year is signed, since chrono accepts an
explicit sign; a second of 60 records chrono's leap-second acceptance (kept
as 60 so that equality and chronological order agree with chrono's internal
59 + 10⁹ ns representation). -/
structure Timestamp where
  year : Int
  month : Nat
  day : Nat
  hour : Nat
  minute : Nat
  second : Nat
deriving DecidableEq, Repr

/-- Proleptic Gregorian leap years, the rule chrono's calendar validation
uses (on the zero tests, truncated and euclidean remainders agree). -/
def isLeap (y : Int) : Bool :=
  (y % 4 = 0 && y % 100 ≠ 0) || y % 400 = 0

/-- Number of days of month `m` of year `y`, as `NaiveDate::from_ymd_opt`
validates them. -/
def daysInMonth (y : Int) (m : Nat) : Nat :=
  if m = 2 then (if isLeap y then 29 else 28)
  else if m = 4 ∨ m = 6 ∨ m = 9 ∨ m = 11 then 30
  else 31

/-- The behaviour of Rust's `char::is_whitespace`: the Unicode `White_Space`
code points, which `str::trim_start` (applied by chrono before every numeric
field and at a whitespace format item) strips. -/
def rustIsWhitespace (c : Char) : Bool :=
  let n := c.toNat
  (9 ≤ n && n ≤ 13) || n = 32 || n = 133 || n = 160 || n = 5760 ||
    (8192 ≤ n && n ≤ 8202) || n = 8232 || n = 8233 || n = 8239 || n = 8287 ||
    n = 12288

/-- The behaviour of `str::trim_start`: strip leading Unicode whitespace. -/
def trimLeft (cs : List Char) : List Char := cs.dropWhile rustIsWhitespace

/-- Is `c` an ASCII decimal digit? -/
def isAsciiDigit (c : Char) : Bool := 48 ≤ c.toNat && c.toNat ≤ 57

/-- The behaviour of chrono's `scan::number(s, min, max)`: consume the
maximal run of ASCII digits among the first `max` characters; fewer than
`min` digits, or an accumulated value overflowing `i64`, is a parse
failure. -/
def scanNumber (minW maxW : Nat) (cs : List Char) : Option (Nat × List Char) :=
  let digits := (cs.take maxW).takeWhile isAsciiDigit
  if digits.length < minW then none
  else
    let v := digits.foldl (fun acc c => acc * 10 + (c.toNat - 48)) 0
    if v ≤ 9223372036854775807 then some (v, cs.drop digits.length) else none

/-- The behaviour of a chrono `Literal` format item: the exact character must
follow, with no trimming. -/
def litChar (c : Char) : List Char → Option (List Char)
  | x :: rest => if x = c then some rest else none
  | [] => none

/-- The behaviour of chrono's `%Y` item: trim whitespace, then either an
explicit `-`/`+` sign followed by unboundedly many digits, or an unpadded
unsigned year of one to four digits. -/
def parseYearField (cs : List Char) : Option (Int × List Char) :=
  match trimLeft cs with
  | [] => none
  | c :: rest =>
    if c.toNat = 45 then
      match scanNumber 1 rest.length rest with
      | some (v, r) => some (-(v : Int), r)
      | none => none
    else if c.toNat = 43 then
      match scanNumber 1 rest.length rest with
      | some (v, r) => some ((v : Int), r)
      | none => none
    else
      match scanNumber 1 4 (c :: rest) with
      | some (v, r) => some ((v : Int), r)
      | none => none

/-- The behaviour of chrono's unsigned two-digit numeric items (`%m`, `%d`,
`%H`, `%M`, `%S`): trim whitespace, then one or two digits. -/
def parseNumField (cs : List Char) : Option (Nat × List Char) :=
  scanNumber 1 2 (trimLeft cs)

/-- The timestamp parse performed by `get_replays` via
`NaiveDateTime::parse_from_str(&time, "%Y-%m-%d %H:%M:%S")`, with chrono 0.4
semantics: whitespace is trimmed before each numeric field and at the
format's literal space, numeric fields are unpadded (a year of up to four
digits, or unboundedly many after an explicit sign; one or two digits for
the other fields), the `-`/`:` literals must follow exactly, the whole input
must be consumed, the fields must form a valid proleptic Gregorian date with
the year in chrono's `NaiveDate` range `[-262144, 262143]`, and the time of
day allows second 60, chrono's leap-second form. -/
def parseTimestamp (s : String) : Option Timestamp :=
  match parseYearField s.data with
  | none => none
  | some (y, r1) =>
    match litChar (Char.ofNat 45) r1 with
    | none => none
    | some r2 =>
      match parseNumField r2 with
      | none => none
      | some (mo, r3) =>
        match litChar (Char.ofNat 45) r3 with
        | none => none
        | some r4 =>
          match parseNumField r4 with
          | none => none
          | some (d, r5) =>
            match parseNumField (trimLeft r5) with
            | none => none
            | some (h, r6) =>
              match litChar (Char.ofNat 58) r6 with
              | none => none
              | some r7 =>
                match parseNumField r7 with
                | none => none
                | some (mi, r8) =>
                  match litChar (Char.ofNat 58) r8 with
                  | none => none
                  | some r9 =>
                    match parseNumField r9 with
                    | none => none
                    | some (se, r10) =>
                      if r10 = [] ∧ (-262144 : Int) ≤ y ∧ y ≤ 262143 ∧
                          1 ≤ mo ∧ mo ≤ 12 ∧ 1 ≤ d ∧ d ≤ daysInMonth y mo ∧
                          h ≤ 23 ∧ mi ≤ 59 ∧ se ≤ 60
                      then some ⟨y, mo, d, h, mi, se⟩
                      else none

/-- Modelled from the spec: the `Floor` enum lives outside `src/`
(`requests.rs` only uses it).  A closed enumeration over the game's rank
tiers, "numeric tiers plus a top Celestial tier", totally ordered by tier
progression. -/
inductive Floor where
  | F1 | F2 | F3 | F4 | F5 | F6 | F7 | F8 | F9 | F10 | Celestial
deriving DecidableEq, Repr

/-- Modelled from the spec: the wire byte code of each floor; the tier
progression order of the enum agrees with the code order. -/
def Floor.code : Floor → Nat
  | .F1 => 1 | .F2 => 2 | .F3 => 3 | .F4 => 4 | .F5 => 5
  | .F6 => 6 | .F7 => 7 | .F8 => 8 | .F9 => 9 | .F10 => 10
  | .Celestial => 99

/-- Modelled from the spec: the `Debug`-style name of a floor, used in the
`InvalidArguments` message of `get_replays`. -/
def Floor.showName : Floor → String
  | .F1 => "F1" | .F2 => "F2" | .F3 => "F3" | .F4 => "F4" | .F5 => "F5"
  | .F6 => "F6" | .F7 => "F7" | .F8 => "F8" | .F9 => "F9" | .F10 => "F10"
  | .Celestial => "Celestial"

/-- Modelled from the spec: `Floor::from_u8`, a checked total mapping from a
single byte to a floor; an unknown byte is a decode failure identifying the
unmapped byte, not a default. -/
def Floor.from_u8 (b : Nat) : Except Err Floor :=
  if b = 1 then .ok .F1 else if b = 2 then .ok .F2 else if b = 3 then .ok .F3
  else if b = 4 then .ok .F4 else if b = 5 then .ok .F5 else if b = 6 then .ok .F6
  else if b = 7 then .ok .F7 else if b = 8 then .ok .F8 else if b = 9 then .ok .F9
  else if b = 10 then .ok .F10 else if b = 99 then .ok .Celestial
  else .error (.unexpectedResponse ("Could not parse floor from byte " ++ toString b))

/-- Modelled from the spec: the `Character` enum lives outside `src/`.  A
closed enumeration over the game's fixed character roster, constructed from a
single byte via a checked total mapping. -/
inductive Character where
  | Sol | Ky | May | Axl | Chipp | Potemkin | Faust | Millia | Zato
  | Ramlethal | Leo | Nagoriyuki | Giovanna | Anji | Ino | Goldlewis
  | JackO | HappyChaos | Baiken | Testament
deriving DecidableEq, Repr

/-- Modelled from the spec: the wire byte code of each character. -/
def Character.code : Character → Nat
  | .Sol => 0 | .Ky => 1 | .May => 2 | .Axl => 3 | .Chipp => 4
  | .Potemkin => 5 | .Faust => 6 | .Millia => 7 | .Zato => 8
  | .Ramlethal => 9 | .Leo => 10 | .Nagoriyuki => 11 | .Giovanna => 12
  | .Anji => 13 | .Ino => 14 | .Goldlewis => 15 | .JackO => 16
  | .HappyChaos => 17 | .Baiken => 18 | .Testament => 19

/-- Modelled from the spec: `Character::from_u8`, a checked total mapping
from a single byte to a roster character; an unknown byte is a decode
failure, not a default. -/
def Character.from_u8 (b : Nat) : Except Err Character :=
  if b = 0 then .ok .Sol else if b = 1 then .ok .Ky else if b = 2 then .ok .May
  else if b = 3 then .ok .Axl else if b = 4 then .ok .Chipp
  else if b = 5 then .ok .Potemkin else if b = 6 then .ok .Faust
  else if b = 7 then .ok .Millia else if b = 8 then .ok .Zato
  else if b = 9 then .ok .Ramlethal else if b = 10 then .ok .Leo
  else if b = 11 then .ok .Nagoriyuki else if b = 12 then .ok .Giovanna
  else if b = 13 then .ok .Anji else if b = 14 then .ok .Ino
  else if b = 15 then .ok .Goldlewis else if b = 16 then .ok .JackO
  else if b = 17 then .ok .HappyChaos else if b = 18 then .ok .Baiken
  else if b = 19 then .ok .Testament
  else .error (.unexpectedResponse ("Could not parse character from byte " ++ toString b))

/-- The `Winner` enum: which of the two players won the match. -/
inductive Winner where
  | Player1 | Player2
deriving DecidableEq, Repr

/-- Numeric code of the winner side, for record comparison. -/
def Winner.code : Winner → Nat
  | .Player1 => 1
  | .Player2 => 2

/-- The `Player` half of a match record: numeric id, lossily decoded name,
and character. -/
structure Player where
  id : Nat
  name : String
  character : Character
deriving DecidableEq, Repr

/-- A decoded `Match` record: floor, timestamp, the two players, and the
winner side. -/
structure Match where
  floor : Floor
  timestamp : Timestamp
  players : Player × Player
  winner : Winner
deriving DecidableEq, Repr

/-- A three-way comparator that is a lawful total order: `eq` means equality,
swapping the arguments swaps the verdict, and `lt` is transitive. -/
structure IsLawfulCmp {α : Type _} (f : α → α → Ordering) : Prop where
  eq_iff : ∀ a b, f a b = Ordering.eq ↔ a = b
  swap_eq : ∀ a b, (f a b).swap = f b a
  lt_trans : ∀ a b c, f a b = Ordering.lt → f b c = Ordering.lt → f a c = Ordering.lt

/-- Three-way comparison on `Nat`. -/
def cmpNat (a b : Nat) : Ordering :=
  if a < b then .lt else if a = b then .eq else .gt

/-- Three-way comparison on `Int`. -/
def cmpInt (a b : Int) : Ordering :=
  if a < b then .lt else if a = b then .eq else .gt

/-- Three-way comparison on `Char` through the code point. -/
def cmpChar (a b : Char) : Ordering :=
  cmpNat a.toNat b.toNat

/-- Lexicographic combination of comparators on a product. -/
def cmpProd {α β : Type _} (f : α → α → Ordering) (g : β → β → Ordering)
    (x y : α × β) : Ordering :=
  (f x.1 y.1).then (g x.2 y.2)

/-- Lexicographic comparison of lists under an element comparator, shorter
prefix first. -/
def cmpList {α : Type _} (f : α → α → Ordering) : List α → List α → Ordering
  | [], [] => .eq
  | [], _ :: _ => .lt
  | _ :: _, [] => .gt
  | x :: xs, y :: ys => (f x y).then (cmpList f xs ys)

/-- The timestamp flattened to a nested tuple, most significant field first;
lexicographic comparison of this tuple is chronological order. -/
def Timestamp.key (t : Timestamp) : Int × Nat × Nat × Nat × Nat × Nat :=
  (t.year, t.month, t.day, t.hour, t.minute, t.second)

/-- The comparator on timestamp keys. -/
def cmpTsKey : (Int × Nat × Nat × Nat × Nat × Nat) → (Int × Nat × Nat × Nat × Nat × Nat) → Ordering :=
  cmpProd cmpInt (cmpProd cmpNat (cmpProd cmpNat (cmpProd cmpNat (cmpProd cmpNat cmpNat))))

/-- A player flattened to (id, name code points, character code). -/
def Player.key (p : Player) : Nat × List Char × Nat :=
  (p.id, p.name.data, p.character.code)

/-- The comparator on player keys. -/
def cmpPlayerKey : (Nat × List Char × Nat) → (Nat × List Char × Nat) → Ordering :=
  cmpProd cmpNat (cmpProd (cmpList cmpChar) cmpNat)

/-- A match record flattened to its full field set, in field declaration
order: floor, timestamp, players, winner. -/
def Match.key (m : Match) :
    Nat × (Int × Nat × Nat × Nat × Nat × Nat) × ((Nat × List Char × Nat) × (Nat × List Char × Nat)) × Nat :=
  (m.floor.code, m.timestamp.key, (m.players.1.key, m.players.2.key), m.winner.code)

/-- Modelled from the spec: the derived `Ord` of the `Match` type (which
lives outside `src/`), "comparing records by their full field set" —
lexicographic comparison of all fields in declaration order. -/
def Match.cmp (a b : Match) : Ordering :=
  cmpProd cmpNat (cmpProd cmpTsKey (cmpProd (cmpProd cmpPlayerKey cmpPlayerKey) cmpNat))
    a.key b.key

/-- The strict "comes before" order on match records. -/
def Match.lt (a b : Match) : Prop := Match.cmp a b = .lt

/-- The behaviour of `BTreeSet<Match>::insert`: insert a record into the strictly ascending
list of records, keeping it strictly ascending; a record already present (by
full-field comparison) is not duplicated. -/
def insertM (m : Match) : List Match → List Match
  | [] => [m]
  | x :: xs =>
    match Match.cmp m x with
    | .lt => m :: x :: xs
    | .eq => x :: xs
    | .gt => x :: insertM m xs

/-- The contents of a `BTreeSet<Match>` as exposed by its iterator: strictly
ascending in the record order. -/
def SortedM (l : List Match) : Prop := List.Pairwise Match.lt l

/-- Folding `BTreeSet::insert` over a list of records. -/
def foldInsert (acc : List Match) (ms : List Match) : List Match :=
  ms.foldl (fun a m => insertM m a) acc

/-- The last (up to) `n` elements of a list in their original order: the
`.rev().take(n).rev()` idiom of `get_replays`. -/
def lastN {α : Type _} (n : Nat) (l : List α) : List α :=
  l.drop (l.length - n)

/-- Section 1 of a match segment: `{floor}{p1_char}{p2_char}`, the last three
bytes of the fragment. -/
def parseSection1 (b : List Nat) : Except Err (Nat × Nat × Nat) :=
  if b.length < 3 then
    .error (.unexpectedResponse "First data part does not have 3 bytes")
  else
    .ok (b.getD (b.length - 3) 0, b.getD (b.length - 2) 0, b.getD (b.length - 1) 0)

/-- Section 2 of a match segment: player 1's 18-byte decimal id, then from
byte 19 the name up to the `0xb1` terminator, both lossily UTF-8 decoded. -/
def parseSection2 (raw b : List Nat) : Except Err (String × String) :=
  if b.length < 20 then
    .error (.unexpectedResponse ("Second data part does not have 20 bytes, has "
      ++ toString b.length ++ " instead: " ++ show_buf b ++ " in " ++ show_buf raw))
  else
    match (splitOnByte 177 (b.drop 19)).head? with
    | some nameBytes => .ok (utf8Lossy (b.take 18), utf8Lossy nameBytes)
    | none =>
      .error (.unexpectedResponse ("Could not parse player1 name: " ++ show_buf (b.drop 19)))

/-- Section 3 of a match segment: player 2's id and name as in section 2,
then from byte 38 a split on `0xb3`; the last piece carries the 19-byte
timestamp, the piece before it ends in the winner byte.  The result is
`(p2_id, p2_name, winner, time)`. -/
def parseSection3 (raw b : List Nat) : Except Err (String × String × Nat × String) :=
  if b.length < 71 then
    .error (.unexpectedResponse ("Third data part does not have 71 bytes, has "
      ++ toString b.length ++ " instead: " ++ show_buf b ++ " in " ++ show_buf raw))
  else
    match (splitOnByte 177 (b.drop 19)).head? with
    | none =>
      .error (.unexpectedResponse ("Could not parse player2 name: " ++ show_buf (b.drop 19)))
    | some nameBytes =>
      let name := utf8Lossy nameBytes
      let wt := (splitOnByte 179 (b.drop 38)).reverse.take 2
      match wt.head? with
      | none =>
        .error (.unexpectedResponse ("Could not split bytes to parse winner and timestamp: "
          ++ show_buf (b.drop 38)))
      | some tbytes =>
        if tbytes.length < 19 then
          .error (.unexpectedResponse ("Not enough bytes to parse timestamp: "
            ++ show_buf (b.drop 38)))
        else
          let time := utf8Lossy (tbytes.take 19)
          match wt[1]? with
          | none =>
            .error (.unexpectedResponse ("Could not split bytes to parse winner: "
              ++ show_buf (b.drop 38)))
          | some wbytes =>
            match wbytes.getLast? with
            | none =>
              .error (.unexpectedResponse ("Could not find winner in bytes: "
                ++ show_buf (b.drop 38)))
            | some w => .ok (utf8Lossy (b.take 18), name, w, time)

/-- The construction of the `Match` value at the end of the segment loop:
every raw subfield is validated, in the field order of the struct literal,
and the first invalid subfield aborts with a structural error. -/
def assembleMatch (floorB c1B c2B : Nat) (p1id p1name p2id p2name : String)
    (winnerB : Nat) (time : String) : Except Err Match :=
  match Floor.from_u8 floorB with
  | .error e => .error e
  | .ok fl =>
    match parseTimestamp time with
    | none => .error (.unexpectedResponse ("Could not parse datetime " ++ time))
    | some ts =>
      match parseU64 p1id with
      | none => .error (.unexpectedResponse ("Could not parse u64 id from " ++ p1id))
      | some id1 =>
        match Character.from_u8 c1B with
        | .error e => .error e
        | .ok ch1 =>
          match parseU64 p2id with
          | none => .error (.unexpectedResponse ("Could not parse u64 id from " ++ p2id))
          | some id2 =>
            match Character.from_u8 c2B with
            | .error e => .error e
            | .ok ch2 =>
              if winnerB = 1 then
                .ok (Match.mk fl ts (Player.mk id1 p1name ch1, Player.mk id2 p2name ch2)
                  Winner.Player1)
              else if winnerB = 2 then
                .ok (Match.mk fl ts (Player.mk id1 p1name ch1, Player.mk id2 p2name ch2)
                  Winner.Player2)
              else
                .error (.unexpectedResponse ("Could not parse winner " ++ toString winnerB))

/-- Decode one match segment: split on the `\x95\xb2` marker, keep the last
three fragments, parse the three sections and assemble the record. -/
def decodeSegment (raw : List Nat) : Except Err Match :=
  match lastN 3 (splitOnSubseq 149 [178] raw) with
  | [] => .error (.unexpectedResponse "Could not find first data part of response")
  | b1 :: data1 =>
    match parseSection1 b1 with
    | .error e => .error e
    | .ok (fl, c1, c2) =>
      match data1 with
      | [] => .error (.unexpectedResponse "Could not find second data part of response")
      | b2 :: data2 =>
        match parseSection2 raw b2 with
        | .error e => .error e
        | .ok (id1, n1) =>
          match data2 with
          | [] => .error (.unexpectedResponse "Could not find third data part of match")
          | b3 :: _ =>
            match parseSection3 raw b3 with
            | .error e => .error e
            | .ok (id2, n2, w, t) => assembleMatch fl c1 c2 id1 n1 id2 n2 w t

/-- The non-empty match segments of a header-stripped page body: split on the
`\x01\x00\x00\x00` separator and keep non-empty fragments. -/
def segments (body : List Nat) : List (List Nat) :=
  (splitOnSubseq 1 [0, 0, 0] body).filter (fun b => !b.isEmpty)

/-- The per-page segment loop: decode every segment of the page and insert
each record into the accumulated set; the first structural failure aborts. -/
def decodeSegs (acc : List Match) : List (List Nat) → Except Err (List Match)
  | [] => .ok acc
  | s :: ss =>
    match decodeSegment s with
    | .error e => .error e
    | .ok m => decodeSegs (insertM m acc) ss

/-- The page loop of `get_replays` over the already-fetched page buffers: a
buffer shorter than 63 bytes ends the loop early with what was accumulated;
otherwise the 61-byte header is stripped and the page's segments decoded. -/
def pagesLoop (acc : List Match) : List (List Nat) → Except Err (List Match)
  | [] => .ok acc
  | b :: bs =>
    if b.length < 63 then .ok acc
    else
      match decodeSegs acc (segments (b.drop 61)) with
      | .error e => .error e
      | .ok acc2 => pagesLoop acc2 bs

/-- The `get_replays` entry point, with the transport modelled as the list of page response
buffers the service would return: validate the arguments, then run the page
loop on the first `pages` responses. -/
def get_replays (pages : Nat) (minF maxF : Floor) (bufs : List (List Nat)) :
    Except Err (List Match) :=
  if 100 < pages then
    .error (.invalidArguments ("pages: " ++ toString pages
      ++ " Cannot query more than 100 pages"))
  else if maxF.code < minF.code then
    .error (.invalidArguments ("min_floor " ++ minF.showName
      ++ " is larger than max_floor " ++ maxF.showName))
  else pagesLoop [] (bufs.take pages)

instance {ε α : Type _} [DecidableEq ε] [DecidableEq α] : DecidableEq (Except ε α) :=
  fun a b =>
    match a, b with
    | .error e, .error f => decidable_of_iff (e = f) (by simp)
    | .error _, .ok _ => .isFalse (by simp)
    | .ok _, .error _ => .isFalse (by simp)
    | .ok x, .ok y => decidable_of_iff (x = y) (by simp)

/-- The bytes of an ASCII string. -/
def asciiBytes (s : String) : List Nat := s.data.map Char.toNat

/-- Build a section-2 fragment: 18-byte id, the `\xa5` length tag, the name,
the `\xb1` terminator. -/
def mkSection2 (id name : String) : List Nat :=
  asciiBytes id ++ [165] ++ asciiBytes name ++ [177]

/-- Build a section-3 fragment: 18-byte id, tag, name, terminator, `pad`
filler bytes, the winner byte, the `\xb3` marker and the 19-byte timestamp
text. -/
def mkSection3 (id name : String) (pad winner : Nat) (ts : String) : List Nat :=
  asciiBytes id ++ [165] ++ asciiBytes name ++ [177] ++
    List.replicate pad 65 ++ [winner, 179] ++ asciiBytes ts

/-- Build a whole match segment from its three sections, joined by the
`\x95\xb2` marker. -/
def mkSegment (floorB c1B c2B : Nat) (s2 s3 : List Nat) : List Nat :=
  [floorB, c1B, c2B] ++ [149, 178] ++ s2 ++ [149, 178] ++ s3

/-- Build a whole response page: a 61-byte static header followed by the
segment list joined by the `\x01\x00\x00\x00` separator. -/
def mkBuffer (segs : List (List Nat)) : List Nat :=
  List.replicate 61 255 ++ List.intercalate [1, 0, 0, 0] segs

/-- The well-formed synthetic segment of the spec's round-trip test. -/
def c1Segment : List Nat :=
  mkSegment 7 0 18
    (mkSection2 "123456789012345678" "Alice")
    (mkSection3 "876543210987654321" "BobPlay2" 22 1 "2023-01-01 12:00:00")

/-- The well-formed single-segment page of the spec's round-trip test. -/
def c1Buffer : List Nat := mkBuffer [c1Segment]

/-- The record `c1Buffer` encodes. -/
def c1Expected : Match :=
  Match.mk Floor.F7 (Timestamp.mk 2023 1 1 12 0 0)
    (Player.mk 123456789012345678 "Alice" Character.Sol,
     Player.mk 876543210987654321 "BobPlay2" Character.Baiken)
    Winner.Player1

/-- A page whose body is a single 2-byte segment, which fails section-1
parsing: the shortest structurally invalid page. -/
def badPage : List Nat := List.replicate 61 255 ++ [255, 255]

/-- A 19-byte second fragment (one short of the minimum). -/
def c2Short : List Nat := List.replicate 19 48

/-- A 22-byte well-formed second fragment. -/
def c2Long : List Nat := asciiBytes "123456789012345678" ++ [165, 66, 177, 67]

/-- A 20-byte second fragment with no `0xb1` terminator in the name region. -/
def c10NoTerm : List Nat := asciiBytes "123456789012345678" ++ [165, 88]

/-- A well-formed 71-byte third fragment. -/
def c3Frag : List Nat :=
  mkSection3 "876543210987654321" "BobPlay2" 22 1 "2023-01-01 12:00:00"

/-- A 70-byte truncation of `c3Frag`, one short of the minimum. -/
def c3Short : List Nat := c3Frag.take 70

/-- A 71-byte third fragment with no `0xb3` marker after offset 38: the split
yields a single piece, so the winner piece is missing. -/
def c3NoMark : List Nat :=
  asciiBytes "876543210987654321" ++ [165] ++ asciiBytes "BobPlay2" ++ [177] ++
    List.replicate 24 65 ++ asciiBytes "2023-01-01 12:00:00"

/-- A second well-formed record, later than `c1Expected` in the record
order. -/
def c6Second : Match :=
  Match.mk Floor.F7 (Timestamp.mk 2023 1 1 13 0 0)
    (Player.mk 123456789012345678 "Alice" Character.Sol,
     Player.mk 876543210987654321 "BobPlay2" Character.Baiken)
    Winner.Player1

theorem splitOnSubseqF_ne_nil (p0 : Nat) (ps : List Nat) (fuel : Nat) (l : List Nat) :
    splitOnSubseqF p0 ps fuel l ≠ [] := by
  match fuel, l with
  | _, [] => simp [splitOnSubseqF]
  | 0, x :: xs => simp [splitOnSubseqF]
  | fuel + 1, x :: xs =>
    rw [splitOnSubseqF]
    split
    · simp
    · split <;> simp

theorem splitOnSubseq_ne_nil (p0 : Nat) (ps : List Nat) (l : List Nat) :
    splitOnSubseq p0 ps l ≠ [] :=
  splitOnSubseqF_ne_nil p0 ps l.length l

theorem splitOnSubseqF_byte_head (sep : Nat) (fuel : Nat) (l : List Nat)
    (hf : l.length ≤ fuel) :
    (splitOnSubseqF sep [] fuel l).head? = some (l.takeWhile (fun b => b ≠ sep)) := by
  induction fuel generalizing l with
  | zero =>
    cases l with
    | nil => simp [splitOnSubseqF, List.takeWhile]
    | cons x xs => simp at hf
  | succ fuel ih =>
    cases l with
    | nil => simp [splitOnSubseqF, List.takeWhile]
    | cons x xs =>
      rw [splitOnSubseqF]
      by_cases hx : x = sep
      · simp [hx, List.takeWhile]
      · have hcond : ¬ (x = sep ∧ List.isPrefixOf [] xs) := by
          intro h; exact hx h.1
        rw [if_neg hcond]
        have hne := splitOnSubseqF_ne_nil sep [] fuel xs
        have hlen : xs.length ≤ fuel := by
          simp at hf; omega
        match hsp : splitOnSubseqF sep [] fuel xs with
        | [] => exact absurd hsp hne
        | y :: ys =>
          have := ih xs hlen
          rw [hsp] at this
          simp at this
          simp [List.takeWhile, hx, this]

theorem splitOnByte_head (sep : Nat) (l : List Nat) :
    (splitOnByte sep l).head? = some (l.takeWhile (fun b => b ≠ sep)) :=
  splitOnSubseqF_byte_head sep l.length l (Nat.le_refl _)

theorem cmpNat_lt_iff (a b : Nat) : cmpNat a b = .lt ↔ a < b := by
  unfold cmpNat
  by_cases h1 : a < b
  · simp [h1]
  · by_cases h2 : a = b <;> simp [h1, h2]

theorem cmpNat_eq_iff (a b : Nat) : cmpNat a b = .eq ↔ a = b := by
  unfold cmpNat
  by_cases h1 : a < b
  · simp [h1]; omega
  · by_cases h2 : a = b <;> simp [h1, h2]

theorem cmpNat_swap (a b : Nat) : (cmpNat a b).swap = cmpNat b a := by
  rcases Nat.lt_trichotomy a b with h | h | h
  · have h2 : ¬ b < a := by omega
    have h3 : b ≠ a := by omega
    simp [cmpNat, h, h2, h3, Ordering.swap]
  · subst h
    simp [cmpNat, Ordering.swap]
  · have h2 : ¬ a < b := by omega
    have h3 : a ≠ b := by omega
    simp [cmpNat, h, h2, h3, Ordering.swap]

theorem cmpNat_lawful : IsLawfulCmp cmpNat :=
  ⟨cmpNat_eq_iff, cmpNat_swap, fun a b c h1 h2 => by
    rw [cmpNat_lt_iff] at h1 h2 ⊢; omega⟩

theorem cmpInt_lt_iff (a b : Int) : cmpInt a b = .lt ↔ a < b := by
  unfold cmpInt
  by_cases h1 : a < b
  · simp [h1]
  · by_cases h2 : a = b <;> simp [h1, h2]

theorem cmpInt_eq_iff (a b : Int) : cmpInt a b = .eq ↔ a = b := by
  unfold cmpInt
  by_cases h1 : a < b
  · simp [h1]; omega
  · by_cases h2 : a = b <;> simp [h1, h2]

theorem cmpInt_swap (a b : Int) : (cmpInt a b).swap = cmpInt b a := by
  rcases lt_trichotomy a b with h | h | h
  · have h2 : ¬ b < a := by omega
    have h3 : b ≠ a := by omega
    simp [cmpInt, h, h2, h3, Ordering.swap]
  · subst h
    simp [cmpInt, Ordering.swap]
  · have h2 : ¬ a < b := by omega
    have h3 : a ≠ b := by omega
    simp [cmpInt, h, h2, h3, Ordering.swap]

theorem cmpInt_lawful : IsLawfulCmp cmpInt :=
  ⟨cmpInt_eq_iff, cmpInt_swap, fun a b c h1 h2 => by
    rw [cmpInt_lt_iff] at h1 h2 ⊢; omega⟩

theorem cmpChar_lawful : IsLawfulCmp cmpChar := by
  refine ⟨fun a b => ?_, fun a b => cmpNat_swap _ _, fun a b c h1 h2 =>
    cmpNat_lawful.lt_trans _ _ _ h1 h2⟩
  unfold cmpChar
  rw [cmpNat_eq_iff]
  constructor
  · intro h
    rw [← Char.ofNat_toNat a, ← Char.ofNat_toNat b, h]
  · intro h; rw [h]

theorem Ordering.then_eq_iff (a b : Ordering) :
    a.then b = .eq ↔ a = .eq ∧ b = .eq := by
  cases a <;> simp [Ordering.then]

theorem Ordering.then_swap (a b : Ordering) :
    (a.then b).swap = a.swap.then b.swap := by
  cases a <;> cases b <;> rfl

theorem cmpProd_lawful {α β : Type _} {f : α → α → Ordering} {g : β → β → Ordering}
    (hf : IsLawfulCmp f) (hg : IsLawfulCmp g) : IsLawfulCmp (cmpProd f g) := by
  constructor
  · intro a b
    unfold cmpProd
    rw [Ordering.then_eq_iff, hf.eq_iff, hg.eq_iff]
    constructor
    · intro ⟨h1, h2⟩; exact Prod.ext h1 h2
    · intro h; rw [h]; exact ⟨rfl, rfl⟩
  · intro a b
    unfold cmpProd
    rw [Ordering.then_swap, hf.swap_eq, hg.swap_eq]
  · intro a b c h1 h2
    unfold cmpProd at h1 h2 ⊢
    cases hab : f a.1 b.1 <;> rw [hab] at h1 <;> simp [Ordering.then] at h1
    · cases hbc : f b.1 c.1 <;> rw [hbc] at h2 <;> simp [Ordering.then] at h2
      · rw [hf.lt_trans _ _ _ hab hbc]; rfl
      · have : b.1 = c.1 := (hf.eq_iff _ _).1 hbc
        rw [← this, hab]; rfl
    · have hab' : a.1 = b.1 := (hf.eq_iff _ _).1 hab
      cases hbc : f b.1 c.1 <;> rw [hbc] at h2 <;> simp [Ordering.then] at h2
      · rw [hab', hbc]; rfl
      · have hbc' : b.1 = c.1 := (hf.eq_iff _ _).1 hbc
        rw [hab', hbc', (hf.eq_iff c.1 c.1).2 rfl]
        simpa [Ordering.then] using hg.lt_trans _ _ _ h1 h2

theorem cmpList_lawful {α : Type _} {f : α → α → Ordering}
    (hf : IsLawfulCmp f) : IsLawfulCmp (cmpList f) := by
  constructor
  · intro a
    induction a with
    | nil => intro b; cases b <;> simp [cmpList]
    | cons x xs ih =>
      intro b
      cases b with
      | nil => simp [cmpList]
      | cons y ys =>
        simp [cmpList, Ordering.then_eq_iff, hf.eq_iff, ih]
  · intro a
    induction a with
    | nil => intro b; cases b <;> simp [cmpList, Ordering.swap]
    | cons x xs ih =>
      intro b
      cases b with
      | nil => simp [cmpList, Ordering.swap]
      | cons y ys =>
        simp [cmpList, Ordering.then_swap, hf.swap_eq, ih]
  · intro a
    induction a with
    | nil =>
      intro b c h1 h2
      cases b with
      | nil => exact h2
      | cons y ys => cases c <;> simp_all [cmpList]
    | cons x xs ih =>
      intro b c h1 h2
      cases b with
      | nil => simp_all [cmpList]
      | cons y ys =>
        cases c with
        | nil => simp_all [cmpList]
        | cons z zs =>
          simp only [cmpList] at h1 h2 ⊢
          cases hxy : f x y <;> rw [hxy] at h1 <;> simp [Ordering.then] at h1
          · cases hyz : f y z <;> rw [hyz] at h2 <;> simp [Ordering.then] at h2
            · rw [hf.lt_trans _ _ _ hxy hyz]; rfl
            · rw [← (hf.eq_iff _ _).1 hyz, hxy]; rfl
          · have hxy' : x = y := (hf.eq_iff _ _).1 hxy
            cases hyz : f y z <;> rw [hyz] at h2 <;> simp [Ordering.then] at h2
            · rw [hxy', hyz]; rfl
            · have hyz' : y = z := (hf.eq_iff _ _).1 hyz
              rw [hxy', hyz', (hf.eq_iff z z).2 rfl]
              simpa [Ordering.then] using ih ys zs h1 h2

theorem cmpTsKey_lawful : IsLawfulCmp cmpTsKey :=
  cmpProd_lawful cmpInt_lawful (cmpProd_lawful cmpNat_lawful (cmpProd_lawful cmpNat_lawful
    (cmpProd_lawful cmpNat_lawful (cmpProd_lawful cmpNat_lawful cmpNat_lawful))))

theorem cmpPlayerKey_lawful : IsLawfulCmp cmpPlayerKey :=
  cmpProd_lawful cmpNat_lawful
    (cmpProd_lawful (cmpList_lawful cmpChar_lawful) cmpNat_lawful)

theorem floorCode_inj (a b : Floor) (h : a.code = b.code) : a = b := by
  cases a <;> cases b <;> first | rfl | (exfalso; revert h; decide)

theorem characterCode_inj (a b : Character) (h : a.code = b.code) : a = b := by
  cases a <;> cases b <;> first | rfl | (exfalso; revert h; decide)

theorem winnerCode_inj (a b : Winner) (h : a.code = b.code) : a = b := by
  cases a <;> cases b <;> first | rfl | (exfalso; revert h; decide)

theorem timestampKey_inj (a b : Timestamp) (h : a.key = b.key) : a = b := by
  cases a; cases b
  simp [Timestamp.key] at h
  obtain ⟨h1, h2, h3, h4, h5, h6⟩ := h
  simp_all

theorem playerKey_inj (a b : Player) (h : a.key = b.key) : a = b := by
  cases a with
  | mk ida na ca =>
    cases b with
    | mk idb nb cb =>
      simp [Player.key] at h
      obtain ⟨h1, h2, h3⟩ := h
      have hn : na = nb := by
        cases na; cases nb; simp_all
      have hc : ca = cb := characterCode_inj _ _ h3
      simp_all

theorem matchKey_inj (a b : Match) (h : a.key = b.key) : a = b := by
  cases a with
  | mk fa ta pa wa =>
    cases b with
    | mk fb tb pb wb =>
      simp [Match.key] at h
      obtain ⟨h1, h2, ⟨h3, h4⟩, h5⟩ := h
      have hf : fa = fb := floorCode_inj _ _ h1
      have ht : ta = tb := timestampKey_inj _ _ h2
      have hp : pa = pb := by
        cases pa; cases pb
        simp only [Prod.mk.injEq]
        exact ⟨playerKey_inj _ _ h3, playerKey_inj _ _ h4⟩
      have hw : wa = wb := winnerCode_inj _ _ h5
      simp_all

theorem cmpMatchKey_lawful :
    IsLawfulCmp (cmpProd cmpNat (cmpProd cmpTsKey (cmpProd (cmpProd cmpPlayerKey cmpPlayerKey) cmpNat))) :=
  cmpProd_lawful cmpNat_lawful (cmpProd_lawful cmpTsKey_lawful
    (cmpProd_lawful (cmpProd_lawful cmpPlayerKey_lawful cmpPlayerKey_lawful) cmpNat_lawful))

theorem Match.cmp_eq_iff (a b : Match) : Match.cmp a b = .eq ↔ a = b := by
  unfold Match.cmp
  rw [cmpMatchKey_lawful.eq_iff]
  constructor
  · exact matchKey_inj a b
  · intro h; rw [h]

theorem Match.cmp_swap (a b : Match) : (Match.cmp a b).swap = Match.cmp b a :=
  cmpMatchKey_lawful.swap_eq _ _

theorem Match.cmp_lt_trans {a b c : Match} (h1 : Match.cmp a b = .lt)
    (h2 : Match.cmp b c = .lt) : Match.cmp a c = .lt :=
  cmpMatchKey_lawful.lt_trans _ _ _ h1 h2

theorem Match.cmp_refl (a : Match) : Match.cmp a a = .eq :=
  (Match.cmp_eq_iff a a).2 rfl

theorem Match.cmp_gt_iff (a b : Match) : Match.cmp a b = .gt ↔ Match.cmp b a = .lt := by
  rw [← Match.cmp_swap b a]
  cases Match.cmp b a <;> simp [Ordering.swap]

theorem Match.lt_irrefl (a : Match) : ¬ Match.lt a a := by
  unfold Match.lt
  rw [Match.cmp_refl]
  simp

theorem Match.lt_asymm {a b : Match} (h : Match.lt a b) : ¬ Match.lt b a := by
  unfold Match.lt at h ⊢
  intro h2
  have := Match.cmp_lt_trans h h2
  rw [Match.cmp_refl] at this
  simp at this

theorem mem_insertM (m y : Match) (l : List Match) :
    y ∈ insertM m l ↔ y = m ∨ y ∈ l := by
  induction l with
  | nil => simp [insertM]
  | cons x xs ih =>
    rw [insertM]
    cases h : Match.cmp m x with
    | lt => simp [List.mem_cons]
    | eq =>
      have : m = x := (Match.cmp_eq_iff m x).1 h
      subst this
      simp [List.mem_cons]
      try tauto
    | gt =>
      simp [List.mem_cons, ih]
      tauto

theorem sorted_insertM (m : Match) (l : List Match) (hs : SortedM l) :
    SortedM (insertM m l) := by
  induction l with
  | nil => simp [insertM, SortedM]
  | cons x xs ih =>
    rw [insertM]
    rcases List.pairwise_cons.1 hs with ⟨hx, hxs⟩
    cases h : Match.cmp m x with
    | lt =>
      refine List.pairwise_cons.2 ⟨?_, hs⟩
      intro z hz
      rcases List.mem_cons.1 hz with hz | hz
      · subst hz; exact h
      · exact Match.cmp_lt_trans h (hx z hz)
    | eq => exact hs
    | gt =>
      refine List.pairwise_cons.2 ⟨?_, ih hxs⟩
      intro z hz
      rcases (mem_insertM m z xs).1 hz with hz | hz
      · rw [hz]
        exact (Match.cmp_gt_iff m x).1 h
      · exact hx z hz

theorem insertM_idem (m : Match) (l : List Match) :
    insertM m (insertM m l) = insertM m l := by
  induction l with
  | nil => simp [insertM, Match.cmp_refl]
  | cons x xs ih =>
    rw [insertM]
    cases h : Match.cmp m x with
    | lt => rw [insertM, Match.cmp_refl]
    | eq => rw [insertM, h]
    | gt => rw [insertM, h, ih]

theorem sorted_ext (l₁ l₂ : List Match) (h₁ : SortedM l₁) (h₂ : SortedM l₂)
    (hmem : ∀ y, y ∈ l₁ ↔ y ∈ l₂) : l₁ = l₂ := by
  induction l₁ generalizing l₂ with
  | nil =>
    cases l₂ with
    | nil => rfl
    | cons y ys =>
      exact absurd ((hmem y).2 (List.mem_cons_self y ys)) (List.not_mem_nil y)
  | cons x xs ih =>
    cases l₂ with
    | nil =>
      exact absurd ((hmem x).1 (List.mem_cons_self x xs)) (List.not_mem_nil x)
    | cons y ys =>
      rcases List.pairwise_cons.1 h₁ with ⟨hx, hxs⟩
      rcases List.pairwise_cons.1 h₂ with ⟨hy, hys⟩
      have hxy : x = y := by
        rcases List.mem_cons.1 ((hmem x).1 (List.mem_cons_self x xs)) with h | h
        · exact h
        · rcases List.mem_cons.1 ((hmem y).2 (List.mem_cons_self y ys)) with h' | h'
          · exact h'.symm
          · exact absurd (hx y h') (Match.lt_asymm (hy x h))
      subst hxy
      have htails : ∀ z, z ∈ xs ↔ z ∈ ys := by
        intro z
        constructor
        · intro hz
          rcases List.mem_cons.1 ((hmem z).1 (List.mem_cons.2 (Or.inr hz))) with h | h
          · subst h; exact absurd (hx z hz) (Match.lt_irrefl z)
          · exact h
        · intro hz
          rcases List.mem_cons.1 ((hmem z).2 (List.mem_cons.2 (Or.inr hz))) with h | h
          · subst h; exact absurd (hy z hz) (Match.lt_irrefl z)
          · exact h
      rw [ih ys hxs hys htails]

theorem foldInsert_nil (acc : List Match) : foldInsert acc [] = acc := rfl

theorem foldInsert_cons (acc : List Match) (m : Match) (ms : List Match) :
    foldInsert acc (m :: ms) = foldInsert (insertM m acc) ms := rfl

theorem sorted_foldInsert (acc : List Match) (ms : List Match) (hs : SortedM acc) :
    SortedM (foldInsert acc ms) := by
  induction ms generalizing acc with
  | nil => exact hs
  | cons m ms ih => exact ih _ (sorted_insertM m acc hs)

theorem mem_foldInsert (acc : List Match) (ms : List Match) (y : Match) :
    y ∈ foldInsert acc ms ↔ y ∈ acc ∨ y ∈ ms := by
  induction ms generalizing acc with
  | nil => simp [foldInsert]
  | cons m ms ih =>
    rw [foldInsert_cons, ih, mem_insertM]
    simp [List.mem_cons]
    tauto

theorem foldInsert_perm (acc : List Match) (ms₁ ms₂ : List Match)
    (hs : SortedM acc) (hp : ms₁.Perm ms₂) :
    foldInsert acc ms₁ = foldInsert acc ms₂ := by
  apply sorted_ext _ _ (sorted_foldInsert _ _ hs) (sorted_foldInsert _ _ hs)
  intro y
  rw [mem_foldInsert, mem_foldInsert]
  have := hp.mem_iff (a := y)
  tauto

/-- Claim C1: for a response buffer consisting of the fixed 61-byte protocol
header followed by exactly one well-formed segment (known floor byte, two
known character bytes, two 18-digit decimal ids, two terminated names, winner
byte 1, timestamp `"2023-01-01 12:00:00"`), decoding yields exactly one
`Match` whose floor, characters, ids, names and timestamp equal the encoded
inputs and whose winner is `Player1`. -/
theorem c1_single_segment_roundtrip :
    get_replays 1 Floor.F1 Floor.Celestial [c1Buffer] =
      .ok [Match.mk Floor.F7 (Timestamp.mk 2023 1 1 12 0 0)
        (Player.mk 123456789012345678 "Alice" Character.Sol,
         Player.mk 876543210987654321 "BobPlay2" Character.Baiken)
        Winner.Player1] := by
  rfl

/-- Claim C4: a response buffer shorter than 63 bytes makes decoding return
the empty record sequence — a defined "no matches" outcome — never a
failure. -/
theorem c4_short_buffer_empty (buf : List Nat) (h : buf.length < 63) :
    pagesLoop [] [buf] = .ok [] := by
  rw [pagesLoop, if_pos h]

theorem c4_short_buffer_empty_witness :
    ([] : List Nat).length < 63 ∧ pagesLoop [] [[]] = .ok [] :=
  ⟨by decide, c4_short_buffer_empty [] (by decide)⟩

/-- Claim C9: if a page after the first is shorter than 63 bytes while
earlier pages produced records, the loop returns what was accumulated so far
and neither fetches nor decodes any of the remaining pages (the result does
not depend on them). -/
theorem c9_short_page_keeps_accumulated (acc : List Match) (b : List Nat)
    (bs : List (List Nat)) (h : b.length < 63) :
    pagesLoop acc (b :: bs) = .ok acc := by
  rw [pagesLoop, if_pos h]

theorem c9_short_page_keeps_accumulated_witness :
    ([] : List Nat).length < 63 ∧
      pagesLoop [c1Expected] ([] :: [badPage]) = .ok [c1Expected] :=
  ⟨by decide, c9_short_page_keeps_accumulated [c1Expected] [] [badPage] (by decide)⟩

/-- Claim C7: a structural decode failure on any page aborts the whole
multi-page call with exactly that failure, whatever pages remain; the records
accumulated so far are discarded (the result is a bare error, not a partial
success). -/
theorem c7_fail_fast (acc : List Match) (b : List Nat) (bs : List (List Nat))
    (e : Err) (hlen : ¬ b.length < 63)
    (hfail : decodeSegs acc (segments (b.drop 61)) = .error e) :
    pagesLoop acc (b :: bs) = .error e := by
  rw [pagesLoop, if_neg hlen, hfail]

theorem c7_fail_fast_witness :
    ¬ badPage.length < 63 ∧
      pagesLoop [c1Expected] [badPage, []] =
        .error (.unexpectedResponse "First data part does not have 3 bytes") :=
  ⟨by decide,
   c7_fail_fast [c1Expected] badPage [[]] _ (by decide) (by rfl)⟩

/-- Claim C8: `get_replays` validates its arguments before issuing any
request: more than 100 pages, or a floor range whose lower bound exceeds its
upper bound, yields an `InvalidArguments` error (not a structural decode
failure), independently of whatever the service would have answered. -/
theorem c8_argument_validation :
    (∀ (pages : Nat) (minF maxF : Floor) (bufs : List (List Nat)),
      100 < pages →
      get_replays pages minF maxF bufs = .error (.invalidArguments
        ("pages: " ++ toString pages ++ " Cannot query more than 100 pages"))) ∧
    (∀ (pages : Nat) (minF maxF : Floor) (bufs : List (List Nat)),
      pages ≤ 100 → maxF.code < minF.code →
      get_replays pages minF maxF bufs = .error (.invalidArguments
        ("min_floor " ++ minF.showName ++ " is larger than max_floor "
          ++ maxF.showName))) := by
  constructor
  · intro pages minF maxF bufs h
    rw [get_replays, if_pos h]
  · intro pages minF maxF bufs hp hf
    rw [get_replays, if_neg (by omega), if_pos hf]

theorem c8_argument_validation_witness :
    (100 < 101 ∧ get_replays 101 Floor.F1 Floor.F2 [[1]] = .error (.invalidArguments
      ("pages: " ++ toString 101 ++ " Cannot query more than 100 pages"))) ∧
    (Floor.F2.code < Floor.F5.code ∧ get_replays 1 Floor.F5 Floor.F2 [[1]] =
      .error (.invalidArguments ("min_floor " ++ Floor.F5.showName
        ++ " is larger than max_floor " ++ Floor.F2.showName))) :=
  ⟨⟨by decide, c8_argument_validation.1 101 Floor.F1 Floor.F2 [[1]] (by decide)⟩,
   ⟨by decide, c8_argument_validation.2 1 Floor.F5 Floor.F2 [[1]] (by decide) (by decide)⟩⟩

/-- Claim C2: a second fragment with fewer than 20 bytes is a structural
failure whose message reports both the offending fragment and the full
enclosing segment; with at least 20 bytes, bytes [0,18) are player 1's
decimal id and the name is the bytes from offset 19 up to the first `0xb1`
terminator, both lossily UTF-8 decoded. -/
theorem c2_fragment2_contract (raw b : List Nat) :
    (b.length < 20 →
      parseSection2 raw b = .error (.unexpectedResponse
        ("Second data part does not have 20 bytes, has " ++ toString b.length
          ++ " instead: " ++ show_buf b ++ " in " ++ show_buf raw))) ∧
    (20 ≤ b.length →
      parseSection2 raw b = .ok (utf8Lossy (b.take 18),
        utf8Lossy ((b.drop 19).takeWhile (fun x => x ≠ 177)))) := by
  constructor
  · intro h
    rw [parseSection2, if_pos h]
  · intro h
    rw [parseSection2, if_neg (by omega), splitOnByte_head]

theorem c2_fragment2_contract_witness :
    (c2Short.length < 20 ∧
      parseSection2 [149] c2Short = .error (.unexpectedResponse
        ("Second data part does not have 20 bytes, has " ++ toString c2Short.length
          ++ " instead: " ++ show_buf c2Short ++ " in " ++ show_buf [149]))) ∧
    (20 ≤ c2Long.length ∧
      parseSection2 [149] c2Long = .ok (utf8Lossy (c2Long.take 18),
        utf8Lossy ((c2Long.drop 19).takeWhile (fun x => x ≠ 177)))) :=
  ⟨⟨by decide, (c2_fragment2_contract [149] c2Short).1 (by decide)⟩,
   ⟨by decide, (c2_fragment2_contract [149] c2Long).2 (by decide)⟩⟩

/-- Claim C10: splitting a byte slice always yields at least one piece, so
the name region always produces a head fragment and the "Could not parse
player name" error branches are unreachable; in particular with no `0xb1`
terminator present the whole remainder of the fragment is the name and the
fragment decodes successfully. -/
theorem c10_name_error_unreachable :
    (∀ (sep : Nat) (l : List Nat), splitOnByte sep l ≠ []) ∧
    (∀ b : List Nat, (splitOnByte 177 (b.drop 19)).head? =
      some ((b.drop 19).takeWhile (fun x => x ≠ 177))) ∧
    (∀ raw b : List Nat, 20 ≤ b.length → ¬ 177 ∈ b.drop 19 →
      parseSection2 raw b = .ok (utf8Lossy (b.take 18), utf8Lossy (b.drop 19))) := by
  refine ⟨fun sep l => splitOnSubseq_ne_nil sep [] l,
    fun b => splitOnByte_head _ _, ?_⟩
  intro raw b hlen hmem
  rw [parseSection2, if_neg (by omega), splitOnByte_head]
  have hsame : List.takeWhile (fun x => !decide (x = 177)) (List.drop 19 b) = List.drop 19 b := by
    refine List.takeWhile_eq_self_iff.2 (fun a ha => ?_)
    have hne : a ≠ 177 := fun hc => hmem (hc ▸ ha)
    simp [hne]
  simp [hsame]

theorem c10_name_error_unreachable_witness :
    20 ≤ c10NoTerm.length ∧ ¬ 177 ∈ c10NoTerm.drop 19 ∧
      parseSection2 [149] c10NoTerm =
        .ok (utf8Lossy (c10NoTerm.take 18), utf8Lossy (c10NoTerm.drop 19)) :=
  ⟨by decide, by decide,
   c10_name_error_unreachable.2.2 [149] c10NoTerm (by decide) (by decide)⟩

/-- Claim C3: a third fragment with fewer than 71 bytes is a structural
failure; otherwise the bytes from offset 38 on are split on the `0xb3`
marker and the trailing two pieces are taken in reverse emission order: the
first must have at least 19 bytes whose prefix is the timestamp text, the
second must be non-empty and its last byte is the winner code; a missing or
undersized piece is a structural failure carrying an escaped rendering of
the offending bytes. -/
theorem c3_fragment3_contract (raw b : List Nat) :
    (b.length < 71 →
      parseSection3 raw b = .error (.unexpectedResponse
        ("Third data part does not have 71 bytes, has " ++ toString b.length
          ++ " instead: " ++ show_buf b ++ " in " ++ show_buf raw))) ∧
    (71 ≤ b.length → ∀ (rest : List (List Nat)) (q p : List Nat),
      splitOnByte 179 (b.drop 38) = rest ++ [q, p] →
      ((p.length < 19 →
        parseSection3 raw b = .error (.unexpectedResponse
          ("Not enough bytes to parse timestamp: " ++ show_buf (b.drop 38)))) ∧
       (19 ≤ p.length → ∀ w : Nat, q.getLast? = some w →
        parseSection3 raw b = .ok (utf8Lossy (b.take 18),
          utf8Lossy ((b.drop 19).takeWhile (fun x => x ≠ 177)), w,
          utf8Lossy (p.take 19))) ∧
       (19 ≤ p.length → q = [] →
        parseSection3 raw b = .error (.unexpectedResponse
          ("Could not find winner in bytes: " ++ show_buf (b.drop 38)))))) ∧
    (71 ≤ b.length → ∀ p : List Nat,
      splitOnByte 179 (b.drop 38) = [p] →
      19 ≤ p.length →
      parseSection3 raw b = .error (.unexpectedResponse
        ("Could not split bytes to parse winner: " ++ show_buf (b.drop 38)))) := by
  refine ⟨?_, ?_, ?_⟩
  · intro h
    rw [parseSection3, if_pos h]
  · intro h71 rest q p hsplit
    have h71n : ¬ b.length < 71 := by omega
    have hwt : ((splitOnByte 179 (b.drop 38)).reverse.take 2) = [p, q] := by
      rw [hsplit]
      simp
    refine ⟨?_, ?_, ?_⟩
    · intro hp
      simp [parseSection3, h71n, splitOnByte_head, hwt, hp]
    · intro hp w hw
      have hp' : ¬ p.length < 19 := by omega
      simp [parseSection3, h71n, splitOnByte_head, hwt, hp', hw]
    · intro hp hq
      have hp' : ¬ p.length < 19 := by omega
      subst hq
      simp [parseSection3, h71n, splitOnByte_head, hwt, hp']
  · intro h71 p hsplit hp
    have h71n : ¬ b.length < 71 := by omega
    have hp' : ¬ p.length < 19 := by omega
    have hwt : ((splitOnByte 179 (b.drop 38)).reverse.take 2) = [p] := by
      rw [hsplit]
      simp
    simp [parseSection3, h71n, splitOnByte_head, hwt, hp']

theorem c3_fragment3_contract_witness :
    (c3Short.length < 71 ∧
      parseSection3 [149] c3Short = .error (.unexpectedResponse
        ("Third data part does not have 71 bytes, has " ++ toString c3Short.length
          ++ " instead: " ++ show_buf c3Short ++ " in " ++ show_buf [149]))) ∧
    (71 ≤ c3Frag.length ∧
      parseSection3 [149] c3Frag = .ok (utf8Lossy (c3Frag.take 18),
        utf8Lossy ((c3Frag.drop 19).takeWhile (fun x => x ≠ 177)), 1,
        utf8Lossy ((asciiBytes "2023-01-01 12:00:00").take 19))) ∧
    (71 ≤ c3NoMark.length ∧
      parseSection3 [149] c3NoMark = .error (.unexpectedResponse
        ("Could not split bytes to parse winner: " ++ show_buf (c3NoMark.drop 38)))) :=
  ⟨⟨by decide, (c3_fragment3_contract [149] c3Short).1 (by decide)⟩,
   ⟨by decide,
    ((c3_fragment3_contract [149] c3Frag).2.1 (by decide) []
      (List.replicate 12 65 ++ [1]) (asciiBytes "2023-01-01 12:00:00")
      (by decide)).2.1 (by decide) 1 (by decide)⟩,
   ⟨by decide,
    (c3_fragment3_contract [149] c3NoMark).2.2 (by decide) (c3NoMark.drop 38)
      (by decide) (by decide)⟩⟩

/-- Claim C5: record assembly is all-or-nothing.  A `Match` is produced iff
the floor byte, both character bytes, both 18-digit ids, the winner byte
(1 ↦ Player1, 2 ↦ Player2) and the timestamp all validate; each invalid
subfield causes a structural failure identifying the offending value, and no
partially-valid record is ever produced. -/
theorem c5_assembly_all_or_nothing
    (fB c1B c2B : Nat) (id1 n1 id2 n2 : String) (wB : Nat) (t : String) :
    (∀ m : Match,
      assembleMatch fB c1B c2B id1 n1 id2 n2 wB t = .ok m ↔
        (Floor.from_u8 fB = .ok m.floor ∧
         parseTimestamp t = some m.timestamp ∧
         parseU64 id1 = some m.players.1.id ∧
         n1 = m.players.1.name ∧
         Character.from_u8 c1B = .ok m.players.1.character ∧
         parseU64 id2 = some m.players.2.id ∧
         n2 = m.players.2.name ∧
         Character.from_u8 c2B = .ok m.players.2.character ∧
         ((wB = 1 ∧ m.winner = .Player1) ∨ (wB = 2 ∧ m.winner = .Player2)))) ∧
    (∀ e : Err, Floor.from_u8 fB = .error e →
      assembleMatch fB c1B c2B id1 n1 id2 n2 wB t = .error e) ∧
    (∀ fl : Floor, Floor.from_u8 fB = .ok fl → parseTimestamp t = none →
      assembleMatch fB c1B c2B id1 n1 id2 n2 wB t =
        .error (.unexpectedResponse ("Could not parse datetime " ++ t))) ∧
    (∀ (fl : Floor) (ts : Timestamp), Floor.from_u8 fB = .ok fl →
      parseTimestamp t = some ts → parseU64 id1 = none →
      assembleMatch fB c1B c2B id1 n1 id2 n2 wB t =
        .error (.unexpectedResponse ("Could not parse u64 id from " ++ id1))) ∧
    (∀ (fl : Floor) (ts : Timestamp) (v1 : Nat) (e : Err), Floor.from_u8 fB = .ok fl →
      parseTimestamp t = some ts → parseU64 id1 = some v1 →
      Character.from_u8 c1B = .error e →
      assembleMatch fB c1B c2B id1 n1 id2 n2 wB t = .error e) ∧
    (∀ (fl : Floor) (ts : Timestamp) (v1 : Nat) (ch1 : Character),
      Floor.from_u8 fB = .ok fl → parseTimestamp t = some ts →
      parseU64 id1 = some v1 → Character.from_u8 c1B = .ok ch1 →
      parseU64 id2 = none →
      assembleMatch fB c1B c2B id1 n1 id2 n2 wB t =
        .error (.unexpectedResponse ("Could not parse u64 id from " ++ id2))) ∧
    (∀ (fl : Floor) (ts : Timestamp) (v1 v2 : Nat) (ch1 : Character) (e : Err),
      Floor.from_u8 fB = .ok fl → parseTimestamp t = some ts →
      parseU64 id1 = some v1 → Character.from_u8 c1B = .ok ch1 →
      parseU64 id2 = some v2 → Character.from_u8 c2B = .error e →
      assembleMatch fB c1B c2B id1 n1 id2 n2 wB t = .error e) ∧
    (∀ (fl : Floor) (ts : Timestamp) (v1 v2 : Nat) (ch1 ch2 : Character),
      Floor.from_u8 fB = .ok fl → parseTimestamp t = some ts →
      parseU64 id1 = some v1 → Character.from_u8 c1B = .ok ch1 →
      parseU64 id2 = some v2 → Character.from_u8 c2B = .ok ch2 →
      wB ≠ 1 → wB ≠ 2 →
      assembleMatch fB c1B c2B id1 n1 id2 n2 wB t =
        .error (.unexpectedResponse ("Could not parse winner " ++ toString wB))) := by
  refine ⟨?_, ?_, ?_, ?_, ?_, ?_, ?_, ?_⟩
  · intro m
    obtain ⟨mf, mt, ⟨p1, p2⟩, mw⟩ := m
    obtain ⟨i1, na1, chr1⟩ := p1
    obtain ⟨i2, na2, chr2⟩ := p2
    constructor
    · intro h
      cases hfl : Floor.from_u8 fB with
      | error e => simp [assembleMatch, hfl, Except.bind] at h
      | ok fl =>
        cases hts : parseTimestamp t with
        | none => simp [assembleMatch, hfl, hts, Except.bind] at h
        | some ts =>
          cases hv1 : parseU64 id1 with
          | none => simp [assembleMatch, hfl, hts, hv1, Except.bind] at h
          | some v1 =>
            cases hc1 : Character.from_u8 c1B with
            | error e => simp [assembleMatch, hfl, hts, hv1, hc1, Except.bind] at h
            | ok ch1 =>
              cases hv2 : parseU64 id2 with
              | none => simp [assembleMatch, hfl, hts, hv1, hc1, hv2, Except.bind] at h
              | some v2 =>
                cases hc2 : Character.from_u8 c2B with
                | error e =>
                  simp [assembleMatch, hfl, hts, hv1, hc1, hv2, hc2, Except.bind] at h
                | ok ch2 =>
                  by_cases hw1 : wB = 1
                  · simp [assembleMatch, hfl, hts, hv1, hc1, hv2, hc2, hw1,
                      Except.bind] at h
                    obtain ⟨h1, h2, ⟨⟨h3, h4, h5⟩, h6, h7, h8⟩, h9⟩ := h
                    subst h1; subst h2; subst h3; subst h4; subst h5
                    subst h6; subst h7; subst h8
                    simp [hfl, hts, hv1, hc1, hv2, hc2, hw1, ← h9]
                  · by_cases hw2 : wB = 2
                    · simp [assembleMatch, hfl, hts, hv1, hc1, hv2, hc2, hw1, hw2,
                        Except.bind] at h
                      obtain ⟨h1, h2, ⟨⟨h3, h4, h5⟩, h6, h7, h8⟩, h9⟩ := h
                      subst h1; subst h2; subst h3; subst h4; subst h5
                      subst h6; subst h7; subst h8
                      simp [hfl, hts, hv1, hc1, hv2, hc2, hw2, ← h9]
                    · simp [assembleMatch, hfl, hts, hv1, hc1, hv2, hc2, hw1, hw2,
                        Except.bind] at h
    · intro ⟨h1, h2, h3, h4, h5, h6, h7, h8, h9⟩
      simp only at h1 h2 h3 h4 h5 h6 h7 h8
      rcases h9 with ⟨hw, hside⟩ | ⟨hw, hside⟩ <;>
        simp only at hside <;> subst hside <;>
        simp [assembleMatch, h1, h2, h3, ← h4, h5, h6, ← h7, h8, hw, Except.bind]
  · intro e hfl
    simp [assembleMatch, hfl, Except.bind]
  · intro fl hfl hts
    simp [assembleMatch, hfl, hts, Except.bind]
  · intro fl ts hfl hts hv1
    simp [assembleMatch, hfl, hts, hv1, Except.bind]
  · intro fl ts v1 e hfl hts hv1 hc1
    simp [assembleMatch, hfl, hts, hv1, hc1, Except.bind]
  · intro fl ts v1 ch1 hfl hts hv1 hc1 hv2
    simp [assembleMatch, hfl, hts, hv1, hc1, hv2, Except.bind]
  · intro fl ts v1 v2 ch1 e hfl hts hv1 hc1 hv2 hc2
    simp [assembleMatch, hfl, hts, hv1, hc1, hv2, hc2, Except.bind]
  · intro fl ts v1 v2 ch1 ch2 hfl hts hv1 hc1 hv2 hc2 hw1 hw2
    simp [assembleMatch, hfl, hts, hv1, hc1, hv2, hc2, hw1, hw2, Except.bind]

theorem c5_assembly_all_or_nothing_witness :
    (assembleMatch 7 0 18 "123456789012345678" "Alice" "876543210987654321" "BobPlay2" 1
      "2023-01-01 12:00:00" = .ok c1Expected) ∧
    (assembleMatch 7 0 18 "123456789012345678" "Alice" "876543210987654321" "BobPlay2" 2
      "2023-01-01 12:00:60" = .ok (Match.mk Floor.F7 (Timestamp.mk 2023 1 1 12 0 60)
        (Player.mk 123456789012345678 "Alice" Character.Sol,
         Player.mk 876543210987654321 "BobPlay2" Character.Baiken) Winner.Player2)) ∧
    (Floor.from_u8 255 = .error (.unexpectedResponse
        ("Could not parse floor from byte " ++ toString 255)) ∧
      assembleMatch 255 0 18 "123456789012345678" "Alice" "876543210987654321" "BobPlay2" 1
        "2023-01-01 12:00:00" = .error (.unexpectedResponse
          ("Could not parse floor from byte " ++ toString 255))) ∧
    (parseU64 "ABC" = none ∧
      assembleMatch 7 0 18 "123456789012345678" "Alice" "ABC" "BobPlay2" 1
        "2023-01-01 12:00:00" = .error (.unexpectedResponse
          ("Could not parse u64 id from " ++ "ABC"))) ∧
    (Character.from_u8 255 = .error (.unexpectedResponse
        ("Could not parse character from byte " ++ toString 255)) ∧
      assembleMatch 7 0 255 "123456789012345678" "Alice" "876543210987654321" "BobPlay2" 1
        "2023-01-01 12:00:00" = .error (.unexpectedResponse
          ("Could not parse character from byte " ++ toString 255))) ∧
    ((3 : Nat) ≠ 1 ∧ (3 : Nat) ≠ 2 ∧
      assembleMatch 7 0 18 "123456789012345678" "Alice" "876543210987654321" "BobPlay2" 3
        "2023-01-01 12:00:00" = .error (.unexpectedResponse
          ("Could not parse winner " ++ toString 3))) :=
  ⟨((c5_assembly_all_or_nothing 7 0 18 "123456789012345678" "Alice" "876543210987654321"
      "BobPlay2" 1 "2023-01-01 12:00:00").1 c1Expected).2 (by decide),
   ((c5_assembly_all_or_nothing 7 0 18 "123456789012345678" "Alice" "876543210987654321"
      "BobPlay2" 2 "2023-01-01 12:00:60").1
      (Match.mk Floor.F7 (Timestamp.mk 2023 1 1 12 0 60)
        (Player.mk 123456789012345678 "Alice" Character.Sol,
         Player.mk 876543210987654321 "BobPlay2" Character.Baiken) Winner.Player2)).2
      (by decide),
   ⟨by decide,
    (c5_assembly_all_or_nothing 255 0 18 "123456789012345678" "Alice" "876543210987654321"
      "BobPlay2" 1 "2023-01-01 12:00:00").2.1
      (.unexpectedResponse ("Could not parse floor from byte " ++ toString 255)) (by decide)⟩,
   ⟨by decide,
    (c5_assembly_all_or_nothing 7 0 18 "123456789012345678" "Alice" "ABC"
      "BobPlay2" 1 "2023-01-01 12:00:00").2.2.2.2.2.1 Floor.F7 (Timestamp.mk 2023 1 1 12 0 0)
      123456789012345678 Character.Sol
      (by decide) (by decide) (by decide) (by decide) (by decide)⟩,
   ⟨by decide,
    (c5_assembly_all_or_nothing 7 0 255 "123456789012345678" "Alice" "876543210987654321"
      "BobPlay2" 1 "2023-01-01 12:00:00").2.2.2.2.2.2.1 Floor.F7 (Timestamp.mk 2023 1 1 12 0 0)
      123456789012345678 876543210987654321 Character.Sol
      (.unexpectedResponse ("Could not parse character from byte " ++ toString 255))
      (by decide) (by decide) (by decide) (by decide) (by decide) (by decide)⟩,
   ⟨by decide, by decide,
    (c5_assembly_all_or_nothing 7 0 18 "123456789012345678" "Alice" "876543210987654321"
      "BobPlay2" 3 "2023-01-01 12:00:00").2.2.2.2.2.2.2 Floor.F7 (Timestamp.mk 2023 1 1 12 0 0)
      123456789012345678 876543210987654321 Character.Sol Character.Baiken
      (by decide) (by decide) (by decide) (by decide) (by decide) (by decide)
      (by decide) (by decide)⟩⟩

theorem sorted_decodeSegs (ss : List (List Nat)) (acc res : List Match)
    (hs : SortedM acc) (h : decodeSegs acc ss = .ok res) : SortedM res := by
  induction ss generalizing acc with
  | nil =>
    rw [decodeSegs] at h
    cases h
    exact hs
  | cons s ss ih =>
    rw [decodeSegs] at h
    cases hd : decodeSegment s with
    | error e => rw [hd] at h; cases h
    | ok m =>
      rw [hd] at h
      exact ih _ (sorted_insertM m acc hs) h

theorem sorted_pagesLoop (bufs : List (List Nat)) (acc res : List Match)
    (hs : SortedM acc) (h : pagesLoop acc bufs = .ok res) : SortedM res := by
  induction bufs generalizing acc with
  | nil =>
    rw [pagesLoop] at h
    cases h
    exact hs
  | cons b bs ih =>
    rw [pagesLoop] at h
    by_cases hb : b.length < 63
    · rw [if_pos hb] at h
      cases h
      exact hs
    · rw [if_neg hb] at h
      cases hd : decodeSegs acc (segments (b.drop 61)) with
      | error e => rw [hd] at h; cases h
      | ok acc2 =>
        rw [hd] at h
        exact ih _ (sorted_decodeSegs _ _ _ hs hd) h

/-- Claim C6: records are accumulated in an ordered, deduplicating set
compared by the full field set: inserting preserves strict ordering and acts
as set insertion, the aggregate is independent of the order the records were
seen, a byte-identical duplicate segment — within one page or on a later
page — adds nothing, and every successful result is strictly sorted by full
record comparison. -/
theorem c6_ordered_dedup :
    (∀ (acc : List Match) (m : Match), SortedM acc →
      SortedM (insertM m acc) ∧ (∀ y, y ∈ insertM m acc ↔ y = m ∨ y ∈ acc)) ∧
    (∀ (acc ms₁ ms₂ : List Match), SortedM acc → ms₁.Perm ms₂ →
      foldInsert acc ms₁ = foldInsert acc ms₂) ∧
    (∀ (acc : List Match) (seg : List Nat) (ss : List (List Nat)),
      decodeSegs acc (seg :: seg :: ss) = decodeSegs acc (seg :: ss)) ∧
    (∀ (acc acc2 : List Match) (seg : List Nat),
      decodeSegs acc [seg] = .ok acc2 → decodeSegs acc2 [seg] = .ok acc2) ∧
    (∀ (bufs : List (List Nat)) (res : List Match),
      pagesLoop [] bufs = .ok res → SortedM res) := by
  refine ⟨?_, ?_, ?_, ?_, ?_⟩
  · intro acc m hs
    exact ⟨sorted_insertM m acc hs, fun y => mem_insertM m y acc⟩
  · intro acc ms₁ ms₂ hs hp
    exact foldInsert_perm acc ms₁ ms₂ hs hp
  · intro acc seg ss
    cases hd : decodeSegment seg with
    | error e => simp [decodeSegs, hd]
    | ok m => simp [decodeSegs, hd, insertM_idem]
  · intro acc acc2 seg h
    cases hd : decodeSegment seg with
    | error e => simp [decodeSegs, hd] at h
    | ok m =>
      simp [decodeSegs, hd] at h
      subst h
      simp [decodeSegs, hd, insertM_idem]
  · intro bufs res h
    exact sorted_pagesLoop bufs [] res List.Pairwise.nil h

theorem c6_ordered_dedup_witness :
    (SortedM (insertM c1Expected []) ∧
      (∀ y, y ∈ insertM c1Expected [] ↔ y = c1Expected ∨ y ∈ ([] : List Match))) ∧
    foldInsert [] [c1Expected, c6Second] = foldInsert [] [c6Second, c1Expected] ∧
    decodeSegs [c1Expected] [c1Segment] = .ok [c1Expected] ∧
    SortedM [c1Expected] :=
  ⟨c6_ordered_dedup.1 [] c1Expected List.Pairwise.nil,
   c6_ordered_dedup.2.1 [] [c1Expected, c6Second] [c6Second, c1Expected]
     List.Pairwise.nil (List.Perm.swap c6Second c1Expected []),
   c6_ordered_dedup.2.2.2.1 [] [c1Expected] c1Segment (by rfl),
   c6_ordered_dedup.2.2.2.2 [c1Buffer] [c1Expected] (by rfl)⟩

end GgstApi
